import Mathlib

/-!
Verification development for the `dhtspider` repository: a shallow
embedding of the parts of the code that the checked properties talk
about, followed by one theorem per property.

Conventions of the embedding:
* Python byte strings are `List Nat` (one `Nat` per byte).
* Python `dict` arguments of KRPC handlers are structures of `Option`
  fields; a field equal to `none` models an absent key.
* A Python handler that performs side effects is a pure function
  returning the list of effects (`Action`) it performs, in program
  order; an uncaught exception inside the handler is modelled by
  cutting the effect list at the point the exception is raised (the
  callers `KRPC.handle_message` / the event loop swallow every
  exception, so the effects already performed stand and nothing
  further happens).
-/

namespace DhtSpider

abbrev Byte := Nat
abbrev Bytes := List Byte

/-- ASCII byte-string literal helper (all literals used are ASCII). -/
def bstr (s : String) : Bytes := s.data.map Char.toNat

/-- Network address `(ip, port)` as Python's transport hands it to the
handlers. -/
structure Addr where
  ip : String
  port : Int
deriving DecidableEq, Repr

-- Bencoded values, as produced by the external `bencoding` codec
-- (the codec itself is out of scope for the repository; dictionaries
-- are association lists of byte-string keys, here `BEntries`).
mutual

inductive BVal where
  | int (n : Int)
  | str (s : Bytes)
  | list (xs : BItems)
  | dict (xs : BEntries)

inductive BItems where
  | nil
  | cons (hd : BVal) (tl : BItems)

inductive BEntries where
  | nil
  | cons (k : Bytes) (v : BVal) (tl : BEntries)

end

deriving instance DecidableEq for BVal
deriving instance DecidableEq for BItems
deriving instance DecidableEq for BEntries

/-- Lookup in a bencoded dictionary (Python `d.get(k)`). -/
def bdictGet (xs : BEntries) (k : Bytes) : Option BVal :=
  match xs with
  | .nil => none
  | .cons k' v tl => if k' = k then some v else bdictGet tl k

/-- Python truthiness of an optional byte string (`None` and `b''` are
falsy). -/
def truthyBytes : Option Bytes → Bool
  | some (_ :: _) => true
  | _ => false

/-- Python truthiness of an optional integer (`None` and `0` are
falsy). -/
def truthyInt : Option Int → Bool
  | some n => n ≠ 0
  | none => false

/-- Model of `_fake_node_id` as implemented identically in `crawler.py`,
`spider.py` and `node.py`:
`return target_id[:-1] + self.node_id[-1:] if target_id else self.node_id`. -/
def fake_node_id (own : Bytes) (target : Option Bytes) : Bytes :=
  if truthyBytes target then
    (target.getD []).dropLast ++ own.drop (own.length - 1)
  else own

/-- ASCII digit test. -/
def isDigit (c : Byte) : Bool := 48 ≤ c && c ≤ 57

/-- Consume leading decimal digits, accumulating their value. -/
def readNatAux : Bytes → Nat → Nat × Bytes
  | c :: tl, acc => if isDigit c then readNatAux tl (acc * 10 + (c - 48)) else (acc, c :: tl)
  | [], acc => (acc, [])

/-- Read at least one decimal digit from the front of `s`. -/
def readDigits (s : Bytes) : Option (Nat × Bytes) :=
  match s with
  | c :: tl => if isDigit c then some (readNatAux tl (c - 48)) else none
  | [] => none

-- Fuel-based bencode decoder (model of the external `bencoding.bdecode`):
-- byte 105 = 'i', 101 = 'e', 108 = 'l', 100 = 'd', 58 = ':', 45 = '-'.
mutual

def bdecodeVal : Nat → Bytes → Option (BVal × Bytes)
  | 0, _ => none
  | _ + 1, [] => none
  | fuel + 1, c :: tl =>
    if c = 105 then
      match tl with
      | 45 :: tl2 =>
        match readDigits tl2 with
        | some (n, 101 :: rest) => some (.int (-(n : Int)), rest)
        | _ => none
      | _ =>
        match readDigits tl with
        | some (n, 101 :: rest) => some (.int (n : Int), rest)
        | _ => none
    else if c = 108 then
      match bdecodeItems fuel tl with
      | some (xs, rest) => some (.list xs, rest)
      | none => none
    else if c = 100 then
      match bdecodeEntries fuel tl with
      | some (xs, rest) => some (.dict xs, rest)
      | none => none
    else if isDigit c then
      match readDigits (c :: tl) with
      | some (n, 58 :: rest) =>
        if n ≤ rest.length then some (.str (rest.take n), rest.drop n) else none
      | _ => none
    else none

def bdecodeItems : Nat → Bytes → Option (BItems × Bytes)
  | 0, _ => none
  | _ + 1, [] => none
  | fuel + 1, c :: tl =>
    if c = 101 then some (.nil, tl)
    else
      match bdecodeVal fuel (c :: tl) with
      | some (v, rest) =>
        match bdecodeItems fuel rest with
        | some (xs, rest2) => some (.cons v xs, rest2)
        | none => none
      | none => none

def bdecodeEntries : Nat → Bytes → Option (BEntries × Bytes)
  | 0, _ => none
  | _ + 1, [] => none
  | fuel + 1, c :: tl =>
    if c = 101 then some (.nil, tl)
    else
      match bdecodeVal fuel (c :: tl) with
      | some (.str k, rest) =>
        match bdecodeVal fuel rest with
        | some (v, rest2) =>
          match bdecodeEntries fuel rest2 with
          | some (xs, rest3) => some (.cons k v xs, rest3)
          | none => none
        | none => none
      | _ => none

end

/-- Decode a complete bencoded byte string; `none` models the decoding
exception of the external codec (trailing bytes are rejected). -/
def bdecode (s : Bytes) : Option BVal :=
  match bdecodeVal (s.length + 1) s with
  | some (v, []) => some v
  | _ => none

/-- Incremental decode from the front of `s`: the decoded value and the
number of bytes it consumed. -/
def bdecodeConsumed (s : Bytes) : Option (BVal × Nat) :=
  match bdecodeVal (s.length + 1) s with
  | some (v, rest) => some (v, s.length - rest.length)
  | none => none

/-- Index of the first occurrence of the byte pair `b"ee"` (`find2ee`),
modelling Python `payload.find(b'ee')`. -/
def find2ee : Bytes → Option Nat
  | 101 :: 101 :: _ => some 0
  | _ :: tl => (find2ee tl).map (· + 1)
  | [] => none

/-- Model of `bencoded_end = payload.find(b'ee') + 2` from
`MetadataFetcher._extended_handshake_loop`; when the pair is absent
Python `find` returns `-1`, making the value `1`. -/
def bencodedEnd (payload : Bytes) : Nat :=
  match find2ee payload with
  | some i => i + 2
  | none => 1

-- ---------------------------------------------------------------------------
-- KRPC messages and handler effects
-- ---------------------------------------------------------------------------

/-- Outbound KRPC messages, at the structured level (the bencoded wire
encoding is the out-of-scope codec). -/
inductive KMsg where
  | ping_r (t id : Bytes)
  | find_node_r (t id nodes : Bytes)
  | get_peers_r (t id token nodes : Bytes)
  | find_node_q (t id target : Bytes)
deriving DecidableEq

/-- One observable effect of a handler, in program order. -/
inductive Action where
  | send (msg : KMsg) (dest : Addr)
  | fetchGated (ih : Bytes) (peer : Addr)
  | fetchUngated (ih : Bytes) (peer : Addr)
  | hookGetPeers (ih : Bytes) (sender : Addr)
  | hookAnnounce (ih : Bytes) (sender : Addr) (peer : Addr)
  | storageSave (ih : Bytes) (meta : BVal)
  | countIncr
  | seenAdd (ih : Bytes)
  | routeFindNode (t nodes : Bytes) (sender : Addr)
  | routeGetPeers (ih : Bytes) (values : List Bytes) (sender : Addr)
deriving DecidableEq

/-- Argument dictionary of an inbound `announce_peer` query; `none`
fields model absent keys (ports are modelled as the integers they are
on the wire). -/
structure AnnounceArgs where
  info_hash : Option Bytes
  id : Option Bytes
  port : Option Int
  implied_port : Option Int
deriving DecidableEq

/-- Value of `FETCHER_SEMAPHORE_LIMIT` from `config.py`. -/
def FETCHER_SEMAPHORE_LIMIT : Nat := 100

/-- The constant token string passed by `Crawler.handle_get_peers_query`
and `Node.handle_get_peers_query` to the get_peers response. -/
def some_token : Bytes := bstr "some_token"

/-- Modelled from the spec: `KRPC.get_peers_response` is invoked by
`crawler.py` and `node.py` but no such method is defined in
`src/dhtspider/krpc.py`; per spec section 4.4 the constructor builds
`get_peers_r {id, token, nodes}` echoing the transaction id. -/
def KRPC.get_peers_response (trans_id id token nodes : Bytes) : KMsg :=
  KMsg.get_peers_r trans_id id token nodes

/-- Model of `Crawler.handle_announce_peer_query` (crawler.py lines 136-152).
`seen` is the Bloom-filter membership test at the moment the handler
runs. -/
def Crawler.handle_announce_peer_query
    (seen : Bytes → Bool) (own trans_id : Bytes)
    (args : AnnounceArgs) (address : Addr) : List Action :=
  if !truthyBytes args.info_hash || seen (args.info_hash.getD []) then []
  else
    match args.id with
    | none => []
    | some sender_id =>
      let sent := [Action.send (KMsg.ping_r trans_id (fake_node_id own (some sender_id))) address]
      let port : Option Int :=
        if args.implied_port.getD 1 = 0 then args.port else some address.port
      if !truthyInt port then sent
      else
        let peer : Addr := { ip := address.ip, port := port.getD 0 }
        sent ++ [Action.fetchGated (args.info_hash.getD []) peer,
                 Action.hookAnnounce (args.info_hash.getD []) address peer]

/-- Model of `Node.handle_announce_peer_query` (node.py lines 210-240): no
SeenSet check is performed, and absent `implied_port` selects the
`port` argument. -/
def Node.handle_announce_peer_query
    (own trans_id : Bytes) (args : AnnounceArgs) (address : Addr) : List Action :=
  if !truthyBytes args.info_hash then []
  else
    match args.id with
    | none => []
    | some sender_id =>
      let sent := [Action.send (KMsg.ping_r trans_id (fake_node_id own (some sender_id))) address]
      let port : Option Int :=
        if truthyInt args.implied_port then some address.port else args.port
      if !truthyInt port then sent
      else
        let peer : Addr := { ip := address.ip, port := port.getD 0 }
        sent ++ [Action.fetchGated (args.info_hash.getD []) peer,
                 Action.hookAnnounce (args.info_hash.getD []) address peer]

/-- Model of the method `_get_peer_addr` of `Spider` (spider.py lines 192-194). -/
def Spider.get_peer_addr (args : AnnounceArgs) (addr : Addr) : Option Addr :=
  let port : Option Int :=
    if args.implied_port.getD 1 = 0 then args.port else some addr.port
  if truthyInt port then some { ip := addr.ip, port := port.getD 0 } else none

/-- Model of `Crawler.handle_get_peers_query` (crawler.py lines 126-134); absent
`info_hash` or `id` raises `KeyError`, which the KRPC dispatcher
swallows. -/
def Crawler.handle_get_peers_query
    (own trans_id : Bytes) (info_hash sender_id : Option Bytes)
    (address : Addr) : List Action :=
  match info_hash with
  | none => []
  | some ih =>
    match sender_id with
    | none => []
    | some sid =>
      [Action.send (KRPC.get_peers_response trans_id (fake_node_id own (some sid))
         some_token []) address,
       Action.hookGetPeers ih address]

/-- The `get_peers` branch of `Spider.handle_query` (spider.py lines
114-120) followed by the trailing `self.find_node(addr=addr)` with a
fresh random target. -/
def Spider.handle_query_get_peers
    (own t info_hash : Bytes) (sender_id : Option Bytes)
    (address : Addr) (fresh_target : Bytes) : List Action :=
  [Action.send (KMsg.get_peers_r t (fake_node_id own sender_id) (info_hash.take 2) []) address,
   Action.send (KMsg.find_node_q (bstr "fn") own fresh_target) address]

/-- Render a compact-peer IPv4 field the way `socket.inet_ntoa` does. -/
def ipString (b : Bytes) : String :=
  String.intercalate "." (b.map (fun n => toString n))

/-- Big-endian byte-string to integer (`int.from_bytes(_, 'big')`). -/
def beNat (b : Bytes) : Nat := b.foldl (fun acc c => acc * 256 + c) 0

/-- Model of `Crawler.handle_get_peers_response` (crawler.py lines 157-166):
each compact peer yields a fetch through the semaphore-gated
`Crawler.fetch_metadata`; records shorter than four bytes make
`inet_ntoa` raise and are skipped. -/
def Crawler.handle_get_peers_response (ih : Bytes) (values : List Bytes) : List Action :=
  values.flatMap (fun peer =>
    if peer.length < 4 then []
    else [Action.fetchGated ih { ip := ipString (peer.take 4), port := (beNat (peer.drop 4) : Int) }])

/-- Model of `Node.handle_get_peers_response` (node.py lines 256-269): each
compact peer constructs a `MetadataFetcher` directly and schedules
`fetcher.fetch()` without touching `fetcher_semaphore`. -/
def Node.handle_get_peers_response (ih : Bytes) (values : List Bytes) : List Action :=
  values.flatMap (fun peer =>
    if peer.length < 4 then []
    else [Action.fetchUngated ih { ip := ipString (peer.take 4), port := (beNat (peer.drop 4) : Int) }])

-- ---------------------------------------------------------------------------
-- Metadata fetcher session (fetcher.py)
-- ---------------------------------------------------------------------------

/-- Python truthiness of an optional bencoded value. -/
def bvTruthy : Option BVal → Bool
  | none => false
  | some (.int n) => n ≠ 0
  | some (.str s) => ¬ s.isEmpty
  | some (.list xs) => xs ≠ .nil
  | some (.dict xs) => xs ≠ .nil

def keyM : Bytes := bstr "m"
def keyUtMetadata : Bytes := bstr "ut_metadata"
def keyMetadataSize : Bytes := bstr "metadata_size"
def keyPiece : Bytes := bstr "piece"
def keyName : Bytes := bstr "name"

/-- Per-session state of `_extended_handshake_loop`: the negotiated
peer `ut_metadata` id and the piece slots.  A non-integer negotiated id
is represented as `none`: an integer sub-id can never equal it, so the
data branch is unreachable either way. -/
structure FetchState where
  peerUt : Option Int
  pieces : List (Option Bytes)
deriving DecidableEq

/-- Result of handling one framed peer message: either the loop
continues with a new state, or the session terminates, having invoked
the completion callback at most on the carried pair. -/
inductive FetchRes where
  | cont (st : FetchState)
  | halt (cb : Option (Bytes × BVal))
deriving DecidableEq

/-- Model of `if piece_index < len(metadata_pieces): metadata_pieces[piece_index] = piece_data`.
Python list assignment accepts negative indices down to `-len`
(counting from the end) and raises `IndexError` below that, which ends
the session (`none`). -/
def storePiece (ps : List (Option Bytes)) (i : Int) (v : Bytes) :
    Option (List (Option Bytes)) :=
  if i < (ps.length : Int) then
    if 0 ≤ i then some (ps.set i.toNat (some v))
    else if -(ps.length : Int) ≤ i then some (ps.set (ps.length - (-i).toNat) (some v))
    else none
  else some ps

/-- Model of `all(p is not None for p in metadata_pieces)`. -/
def allFilled (ps : List (Option Bytes)) : Bool := ps.all (fun p => p.isSome)

/-- Model of `b''.join(metadata_pieces)` (used only once every slot is filled). -/
def joinPieces (ps : List (Option Bytes)) : Bytes := ps.flatMap (fun p => p.getD [])

/-- The negotiated id as the data-branch condition can observe it: a
non-integer value never equals the integer sub-id byte, so it behaves
exactly like an unset id. -/
def toPeerUt : Option BVal → Option Int
  | some (.int pu) => some pu
  | _ => none

/-- The `extended_msg_id == 0` branch of `_extended_handshake_loop`:
the peer's extension handshake.  `peer_ut_metadata_id` is reassigned
before the truthiness guard, so it changes even when no pieces are
allocated.  Decode failures and attribute or type errors propagate and
end the session; a negotiated id outside one byte makes
`to_bytes(1, 'big')` raise while the pieces are being requested. -/
def fetchHandshake (st : FetchState) (payload : Bytes) : FetchRes :=
  match bdecode payload with
  | some (.dict d) =>
    match (bdictGet d keyM).getD (.dict .nil) with
    | .dict md =>
      let peerUt := bdictGet md keyUtMetadata
      let msize := bdictGet d keyMetadataSize
      if bvTruthy peerUt && bvTruthy msize then
        match msize with
        | some (.int ms) =>
          let np : Nat := (Int.fdiv (ms + 16383) 16384).toNat
          match peerUt with
          | some (.int pu) =>
            if 0 < np && (pu < 0 || 255 < pu) then .halt none
            else .cont { peerUt := some pu, pieces := List.replicate np none }
          | _ =>
            if 0 < np then .halt none
            else .cont { peerUt := none, pieces := [] }
        | _ => .halt none
      else .cont { st with peerUt := toPeerUt peerUt }
    | _ => .halt none
  | _ => .halt none

/-- The data branch of `_extended_handshake_loop`
(fetcher.py lines 88-105): split the payload at the first `b"ee"`,
decode the header, store the piece, and on a full assembly verify the
SHA-1 digest against the session's `info_hash` before invoking the
callback; the session returns in every complete case. -/
def fetchData (sha1 : Bytes → Bytes) (info_hash : Bytes) (st : FetchState)
    (payload : Bytes) : FetchRes :=
  let bend := bencodedEnd payload
  match bdecode (payload.take bend) with
  | some (.dict d) =>
    match bdictGet d keyPiece with
    | some (.int pi) =>
      match storePiece st.pieces pi (payload.drop bend) with
      | none => .halt none
      | some ps =>
        if allFilled ps then
          if sha1 (joinPieces ps) = info_hash then
            match bdecode (joinPieces ps) with
            | some v => .halt (some (info_hash, v))
            | none => .halt none
          else .halt none
        else .cont { st with pieces := ps }
    | some _ => .halt none
    | none => .halt none
  | some _ => .halt none
  | none => .halt none

/-- Dispatch of one framed message in `_extended_handshake_loop`:
`message[0]` must be 20 (extension protocol) and `message[1]` selects
the handshake or the negotiated `ut_metadata` sub-id; anything else is
ignored and the loop continues. -/
def fetchStep (sha1 : Bytes → Bytes) (info_hash : Bytes) (st : FetchState)
    (message : Bytes) : FetchRes :=
  match message with
  | [] => .halt none
  | msgId :: rest =>
    if msgId ≠ 20 then .cont st
    else
      match rest with
      | [] => .halt none
      | extId :: payload =>
        if extId = 0 then fetchHandshake st payload
        else if (match st.peerUt with
                 | some pu => decide (pu ≠ 0) && decide ((extId : Int) = pu)
                 | none => false) then
          fetchData sha1 info_hash st payload
        else .cont st

/-- Run the message loop over a list of inbound framed messages,
collecting every completion-callback invocation. -/
def runFetch (sha1 : Bytes → Bytes) (info_hash : Bytes) :
    FetchState → List Bytes → List (Bytes × BVal)
  | _, [] => []
  | st, m :: ms =>
    match fetchStep sha1 info_hash st m with
    | .cont st' => runFetch sha1 info_hash st' ms
    | .halt none => []
    | .halt (some cb) => [cb]

/-- Initial loop state, before the peer's extension handshake. -/
def initFetchState : FetchState := { peerUt := none, pieces := [] }

-- ---------------------------------------------------------------------------
-- Completion callbacks (crawler.py / node.py `on_metadata_received`)
-- ---------------------------------------------------------------------------

/-- Whether `metadata.get(b'name', b'Unknown').decode('utf-8', 'ignore')`
succeeds: the metadata must be a dict and the `name` value, when
present, a byte string (decoding with `'ignore'` never fails). -/
def metaNameOk : BVal → Bool
  | .dict d =>
    match bdictGet d keyName with
    | none => true
    | some (.str _) => true
    | some _ => false
  | _ => false

/-- Model of `Crawler.on_metadata_received` (crawler.py lines 173-181): save,
bump the counter, then add the `info_hash` to the SeenSet; a failure
while reading the name aborts before any effect (the surrounding `try`
logs it). -/
def Crawler.on_metadata_received (ih : Bytes) (meta : BVal) : List Action :=
  if metaNameOk meta then
    [Action.storageSave ih meta, Action.countIncr, Action.seenAdd ih]
  else []

/-- Model of `Node.on_metadata_received` (node.py lines 279-291): save and bump
the counter; the `info_hash` is never added to the SeenSet. -/
def Node.on_metadata_received (ih : Bytes) (meta : BVal) : List Action :=
  if metaNameOk meta then
    [Action.storageSave ih meta, Action.countIncr]
  else []

-- ---------------------------------------------------------------------------
-- Bloom-filter snapshot at shutdown (crawler.py close / spider.py stop)
-- ---------------------------------------------------------------------------

/-- File-system operations observable during shutdown. -/
inductive FsOp where
  | openTrunc (path : String)
  | writeAll (path : String) (data : Bytes)
  | rename (src dst : String)
deriving DecidableEq

/-- The file-system trace of `Crawler.close` (crawler.py lines 55-66):
`open(bloom_filter_file, 'wb')` followed by `tofile`. -/
def Crawler.close_fs_ops (bloom_path : String) (serialized : Bytes) : List FsOp :=
  [FsOp.openTrunc bloom_path, FsOp.writeAll bloom_path serialized]

/-- The file-system trace of `Spider.stop` (spider.py lines 56-64),
identical to `Crawler.close`. -/
def Spider.stop_fs_ops (bloom_path : String) (serialized : Bytes) : List FsOp :=
  [FsOp.openTrunc bloom_path, FsOp.writeAll bloom_path serialized]

/-- Formalisation of the claim's words: an atomic snapshot writes only
to a temporary path distinct from the snapshot path and then renames
the temporary over it; the snapshot path itself is never opened for
writing. -/
def atomicSnapshot (ops : List FsOp) (path : String) : Prop :=
  FsOp.openTrunc path ∉ ops ∧
  (∀ d, FsOp.writeAll path d ∉ ops) ∧
  ∃ tmp, tmp ≠ path ∧ FsOp.rename tmp path ∈ ops

-- ---------------------------------------------------------------------------
-- KRPC transaction table (krpc.py)
-- ---------------------------------------------------------------------------

/-- The transaction table: `trans_id ↦ {"info_hash": ih}` entries (the
registered dict always carries exactly the `info_hash` key, see
`KRPC.get_peers_query`). -/
abbrev TransTable := List (Bytes × Bytes)

/-- Model of `self.transactions.get(trans_id)`. -/
def transGet (tbl : TransTable) (k : Bytes) : Option Bytes :=
  match tbl with
  | [] => none
  | (k', v) :: tl => if k' = k then some v else transGet tl k

/-- Model of `del self.transactions[trans_id]` (keys of a Python dict are
unique, so removing every binding of `k` is the same removal). -/
def transDel (tbl : TransTable) (k : Bytes) : TransTable :=
  tbl.filter (fun e => e.1 ≠ k)

/-- Decimal ASCII digits of `n`, most significant first (the fuel is
an upper bound on the digit count). -/
def decimalDigitsAux : Nat → Nat → Bytes
  | 0, _ => []
  | fuel + 1, n =>
    if n < 10 then [48 + n] else decimalDigitsAux fuel (n / 10) ++ [48 + n % 10]

/-- Python `str(n).encode()` for a natural number. -/
def decimalBytes (n : Nat) : Bytes := decimalDigitsAux (n + 1) n

/-- Model of the private transaction-id generator of `KRPC`: the counter is incremented and rendered
as its decimal ASCII form, so counter state `n` yields `str(n + 1)`. -/
def get_transaction_id (n : Nat) : Bytes := decimalBytes (n + 1)

/-- An inbound `y == 'r'` message as `KRPC.handle_response` inspects
it: the transaction id and the raw value under `b'r'` (`none` models
an absent key, for which the code substitutes `{}`). -/
structure RespMsg where
  t : Option Bytes
  r : Option BVal
deriving DecidableEq

def keyNodes : Bytes := bstr "nodes"
def keyValues : Bytes := bstr "values"

/-- Whether the byte string `k` occurs as a contiguous substring of
`s` (Python `k in s` for bytes). -/
def bytesHasSub (k : Bytes) : Bytes → Bool
  | [] => k.isEmpty
  | c :: tl => k.isPrefixOf (c :: tl) || bytesHasSub k tl

/-- Whether a bencoded list has the byte string `k` among its elements
(Python `k in xs`; equality with a non-bytes element is false). -/
def bitemsHasStr (xs : BItems) (k : Bytes) : Bool :=
  match xs with
  | .nil => false
  | .cons v tl => decide (v = BVal.str k) || bitemsHasStr tl k

/-- Python membership `k in v` on a decoded bencoded value: key test
on a dict, substring test on a byte string, element test on a list;
on an integer the `in` operator raises `TypeError` (`none`). -/
def bvalContains (v : BVal) (k : Bytes) : Option Bool :=
  match v with
  | .int _ => none
  | .str s => some (bytesHasSub k s)
  | .list xs => some (bitemsHasStr xs k)
  | .dict d => some (bdictGet d k).isSome

/-- The installed handler's two response entry points exactly as
`KRPC.handle_response` calls them.  They live outside `krpc.py`
(crawler/spider/node or a test double), so they are parameters of the
model; each call returns the effects it performed and whether it then
raised (`Crawler.handle_find_node_response` does raise on malformed
payloads, e.g. `decode_nodes(42)` hits `len(42)` outside any try). -/
structure RespHandler where
  find_node : Bytes → BVal → Addr → List Action × Bool
  get_peers : Bytes → BVal → Addr → List Action × Bool

/-- Model of `KRPC.handle_response` (krpc.py lines 108-130) with a
handler installed: route on the shape of `r`, then delete the
transaction entry whenever it exists.  The function has no
`try`/`except` of its own, so when the membership test `b'nodes' in
args` / `b'values' in args` raises (integer `args`), or the routed
handler call raises, the exception propagates to `handle_message` and
the `del` at lines 129-130 is never reached: the table is returned
unchanged (the raising call's effects are cut). -/
def KRPC.handle_response (h : RespHandler) (tbl : TransTable) (msg : RespMsg)
    (address : Addr) : List Action × TransTable :=
  if !truthyBytes msg.t then ([], tbl)
  else
    let t := msg.t.getD []
    let transaction := transGet tbl t
    let args := msg.r.getD (BVal.dict .nil)
    match bvalContains args keyNodes with
    | none => ([], tbl)
    | some true =>
      match h.find_node t args address with
      | (acts, true) => (acts, tbl)
      | (acts, false) =>
        (acts, if (transGet tbl t).isSome then transDel tbl t else tbl)
    | some false =>
      match bvalContains args keyValues with
      | none => ([], tbl)
      | some true =>
        match transaction with
        | some ihash =>
          if !ihash.isEmpty then
            match h.get_peers ihash args address with
            | (acts, true) => (acts, tbl)
            | (acts, false) =>
              (acts, if (transGet tbl t).isSome then transDel tbl t else tbl)
          else ([], if (transGet tbl t).isSome then transDel tbl t else tbl)
        | none => ([], if (transGet tbl t).isSome then transDel tbl t else tbl)
      | some false => ([], if (transGet tbl t).isSome then transDel tbl t else tbl)

/-- A response handler whose routed calls return normally with no
effects. -/
def exRespHandlerOk : RespHandler :=
  { find_node := fun _ _ _ => ([], false), get_peers := fun _ _ _ => ([], false) }

/-- A response handler whose routed calls raise immediately, as the
crawler's `handle_find_node_response` does on `r = {nodes: 42}` where
`decode_nodes(42)` raises `TypeError` outside any `try`. -/
def exRespHandlerRaise : RespHandler :=
  { find_node := fun _ _ _ => ([], true), get_peers := fun _ _ _ => ([], true) }

-- ---------------------------------------------------------------------------
-- Counting-semaphore discipline (asyncio.Semaphore in fetch_metadata)
-- ---------------------------------------------------------------------------

/-- Events on the fetcher semaphore: a gated session entering
`async with` and a session exiting (successfully or not). -/
inductive SemEvent where
  | acquire
  | release
deriving DecidableEq

/-- One step of the in-flight session counter: an acquire blocks while
the limit is reached (the count stays), a release frees a slot. -/
def semStep (limit n : Nat) : SemEvent → Nat
  | .acquire => if n < limit then n + 1 else n
  | .release => n - 1

/-- The in-flight count after a sequence of semaphore events. -/
def semRun (limit : Nat) (n : Nat) : List SemEvent → Nat
  | [] => n
  | e :: es => semRun limit (semStep limit n e) es

-- ---------------------------------------------------------------------------
-- Observers used to state the claims
-- ---------------------------------------------------------------------------

/-- Whether an action submits a metadata fetch (gated or not). -/
def isFetchAction : Action → Bool
  | .fetchGated _ _ => true
  | .fetchUngated _ _ => true
  | _ => false

/-- Whether an action submits a fetch that bypasses the semaphore. -/
def isUngatedFetch : Action → Bool
  | .fetchUngated _ _ => true
  | _ => false

/-- Whether an action sends an outbound datagram. -/
def isSendAction : Action → Bool
  | .send _ _ => true
  | _ => false

/-- The fetch submissions of an effect list, with their targets. -/
def fetchTargets (acts : List Action) : List (Bytes × Addr) :=
  acts.flatMap (fun a =>
    match a with
    | .fetchGated ih p => [(ih, p)]
    | .fetchUngated ih p => [(ih, p)]
    | _ => [])

/-- The `(t, id, token, nodes)` fields of every `get_peers` response
sent in an effect list. -/
def getPeersReplies (acts : List Action) : List (Bytes × Bytes × Bytes × Bytes) :=
  acts.flatMap (fun a =>
    match a with
    | .send (KMsg.get_peers_r t id token nodes) _ => [(t, id, token, nodes)]
    | _ => [])

/-- The peer-port selection as the claim, amended to the code, words
it: when `implied_port` is present and equal to zero the `port`
argument is used, in every other case the UDP source port. -/
def derivedPortSpec (args : AnnounceArgs) (address : Addr) : Option Int :=
  if args.implied_port = some 0 then args.port else some address.port

-- Concrete inputs reused by the concrete instances below.

/-- A concrete 20-byte info hash. -/
def exInfoHash : Bytes := List.replicate 20 7

/-- A concrete 20-byte sender id. -/
def exSender : Bytes := List.replicate 20 1

/-- A concrete 20-byte local node id. -/
def exOwn : Bytes := List.replicate 20 2

/-- A concrete UDP source address. -/
def exAddr : Addr := { ip := "1.2.3.4", port := 1234 }

/-- Concrete `announce_peer` arguments with `implied_port` present and zero. -/
def exArgsImplied0 : AnnounceArgs :=
  { info_hash := some exInfoHash, id := some exSender, port := some 5678,
    implied_port := some 0 }

/-- Concrete `announce_peer` arguments with `implied_port` absent. -/
def exArgsNoImplied : AnnounceArgs :=
  { info_hash := some exInfoHash, id := some exSender, port := some 5678,
    implied_port := none }

/-- A concrete bencoded metadata dictionary `{name: b"x"}`. -/
def exMeta : BVal := BVal.dict (.cons keyName (BVal.str (bstr "x")) .nil)

/-- A `ut_metadata` data message payload (after the two id bytes)
whose bencoded header `{a: {b: 1}, piece: 0}` contains the byte pair
`b"ee"` before its outer terminator, followed by the two raw piece
bytes `b"XY"`. -/
def exDataPayload : Bytes := bstr "d1:ad1:bi1ee5:piecei0ee" ++ [88, 89]

/-- The value of the bencoded header of `exDataPayload`. -/
def exDataHeaderVal : BVal :=
  BVal.dict (.cons (bstr "a") (BVal.dict (.cons (bstr "b") (BVal.int 1) .nil))
    (.cons (bstr "piece") (BVal.int 0) .nil))

-- ---------------------------------------------------------------------------
-- Theorems
-- ---------------------------------------------------------------------------

-- Helper lemmas (shared; none of them is a claim's theorem).

/-- Deleting a key from the transaction table makes its lookup fail. -/
theorem transGet_transDel (tbl : TransTable) (t : Bytes) :
    transGet (transDel tbl t) t = none := by
  induction tbl with
  | nil => rfl
  | cons e tl ih =>
    by_cases h : e.1 = t
    · simp [transDel, h] at ih ⊢
      simpa [transDel] using ih
    · simp [transDel, h, transGet] at ih ⊢
      simpa [transDel, transGet, h] using ih

/-- A decimal rendering is never the empty byte string. -/
theorem decimalDigitsAux_ne_nil (fuel n : Nat) :
    decimalDigitsAux (fuel + 1) n ≠ [] := by
  unfold decimalDigitsAux
  split
  · simp
  · simp

/-- Python `d.get(k, 1) == 0` holds exactly when `k` is bound to `0`. -/
theorem impliedGetD_iff (o : Option Int) : o.getD 1 = 0 ↔ o = some 0 := by
  cases o <;> simp

/-- The in-flight counter of the semaphore discipline never exceeds the
limit. -/
theorem semRun_le (limit : Nat) (es : List SemEvent) :
    ∀ n, n ≤ limit → semRun limit n es ≤ limit := by
  induction es with
  | nil => intro n h; exact h
  | cons e tl ih =>
    intro n h
    apply ih
    cases e with
    | acquire =>
      simp only [semStep]
      split <;> omega
    | release =>
      simp only [semStep]
      omega

/-- Every fetch submitted by the crawler's get_peers response handler
goes through the semaphore-gated `fetch_metadata`. -/
theorem crawler_get_peers_response_gated (ih : Bytes) (values : List Bytes) :
    (Crawler.handle_get_peers_response ih values).all (fun a => !isUngatedFetch a) = true := by
  rw [List.all_eq_true]
  intro a ha
  rw [Crawler.handle_get_peers_response, List.mem_flatMap] at ha
  obtain ⟨p, hp, hap⟩ := ha
  split at hap
  · simp at hap
  · simp at hap
    subst hap
    rfl

/-- Every fetch submitted by the crawler's announce handler goes
through the semaphore-gated `fetch_metadata`. -/
theorem crawler_announce_gated (seen : Bytes → Bool) (own trans_id : Bytes)
    (args : AnnounceArgs) (address : Addr) :
    (Crawler.handle_announce_peer_query seen own trans_id args address).all
      (fun a => !isUngatedFetch a) = true := by
  unfold Crawler.handle_announce_peer_query
  split
  · rfl
  · split
    · rfl
    · split <;> (dsimp only; split <;> rfl)

/-- The extension-handshake branch never invokes the completion
callback. -/
theorem fetchHandshake_no_cb (st : FetchState) (payload : Bytes) (cb : Bytes × BVal) :
    fetchHandshake st payload ≠ .halt (some cb) := by
  intro h
  unfold fetchHandshake at h
  dsimp only at h
  repeat' split at h
  all_goals simp at h

/-- When the data branch invokes the completion callback, it does so
with the session's `info_hash` and a fully filled assembly whose
digest matches. -/
theorem fetchData_halt_some (sha1 : Bytes → Bytes) (ih : Bytes) (st : FetchState)
    (payload : Bytes) (cb : Bytes × BVal)
    (h : fetchData sha1 ih st payload = .halt (some cb)) :
    cb.1 = ih ∧ ∃ ps, allFilled ps = true ∧ sha1 (joinPieces ps) = ih ∧
      bdecode (joinPieces ps) = some cb.2 := by
  unfold fetchData at h
  dsimp only at h
  repeat' split at h
  all_goals simp at h
  rename_i ps hstore hAll hSha x v heq
  subst h
  exact ⟨rfl, ps, hAll, hSha, heq⟩

/-- Any callback delivered by a single loop step satisfies the
assembly and digest conditions. -/
theorem fetchStep_halt_some (sha1 : Bytes → Bytes) (ih : Bytes) (st : FetchState)
    (m : Bytes) (cb : Bytes × BVal)
    (h : fetchStep sha1 ih st m = .halt (some cb)) :
    cb.1 = ih ∧ ∃ ps, allFilled ps = true ∧ sha1 (joinPieces ps) = ih ∧
      bdecode (joinPieces ps) = some cb.2 := by
  unfold fetchStep at h
  split at h
  · simp at h
  · split at h
    · simp at h
    · split at h
      · simp at h
      · split at h
        · exact absurd h (fetchHandshake_no_cb _ _ _)
        · split at h
          · exact fetchData_halt_some sha1 ih st _ cb h
          · simp at h

-- Claim C1.

/-- C1 (amended): for every inbound `announce_peer` query whose
`info_hash` is in the SeenSet when `Crawler.handle_announce_peer_query`
runs, the crawler handler performs no effect at all: no outbound
datagram, no metadata fetch, no user hook. -/
theorem C1_crawler_announce_seen (seen : Bytes → Bool) (own trans_id : Bytes)
    (args : AnnounceArgs) (address : Addr)
    (h : seen (args.info_hash.getD []) = true) :
    Crawler.handle_announce_peer_query seen own trans_id args address = [] := by
  simp [Crawler.handle_announce_peer_query, h]

/-- Witness for C1: a concrete seen announce produces no effects. -/
theorem C1_witness :
    ((fun _ : Bytes => true) (exArgsImplied0.info_hash.getD []) = true) ∧
    Crawler.handle_announce_peer_query (fun _ => true) exOwn [116, 49]
      exArgsImplied0 exAddr = [] :=
  ⟨rfl, C1_crawler_announce_seen _ _ _ _ _ rfl⟩

/-- Counterexample to C1 as stated: `Node.handle_announce_peer_query`
never consults the SeenSet, so with the concrete info hash a member of
the SeenSet it still sends a `ping` response and still initiates a
fetch. -/
theorem C1_counterexample :
    ((fun x => decide (x = exInfoHash)) exInfoHash = true) ∧
    ((Node.handle_announce_peer_query exOwn [116, 50] exArgsImplied0 exAddr).any
      isSendAction = true) ∧
    ((Node.handle_announce_peer_query exOwn [116, 50] exArgsImplied0 exAddr).any
      isFetchAction = true) := by decide

-- Claim C2.

/-- C2 (amended): in `Crawler.handle_announce_peer_query` and
`Spider._get_peer_addr` the peer port is the `port` argument exactly
when `implied_port` is present and equal to zero; in every other case
- `implied_port` absent included - the UDP source port is used, and a
missing or zero result drops the fetch silently. -/
theorem C2_port_derivation (seen : Bytes → Bool) (own trans_id ih sid : Bytes)
    (args : AnnounceArgs) (address : Addr)
    (hih : args.info_hash = some ih) (hne : ih ≠ []) (hid : args.id = some sid)
    (hseen : seen ih = false) :
    fetchTargets (Crawler.handle_announce_peer_query seen own trans_id args address) =
      (if truthyInt (derivedPortSpec args address) then
        [(ih, { ip := address.ip, port := (derivedPortSpec args address).getD 0 })] else []) ∧
    Spider.get_peer_addr args address =
      (if truthyInt (derivedPortSpec args address) then
        some { ip := address.ip, port := (derivedPortSpec args address).getD 0 } else none) := by
  have htr : truthyBytes (some ih) = true := by
    cases ih with
    | nil => exact absurd rfl hne
    | cons a l => rfl
  have hport : (if args.implied_port.getD 1 = 0 then args.port else some address.port) =
      derivedPortSpec args address := by
    unfold derivedPortSpec
    by_cases h0 : args.implied_port = some 0
    · simp [h0]
    · rw [if_neg h0, if_neg (fun hc => h0 ((impliedGetD_iff args.implied_port).mp hc))]
  constructor
  · simp only [Crawler.handle_announce_peer_query, hih, hid, Option.getD_some, htr, hseen,
      Bool.not_true, Bool.false_or, if_false, hport]
    by_cases hT : truthyInt (derivedPortSpec args address)
    · simp [hT, fetchTargets]
    · rw [Bool.not_eq_true] at hT
      simp [hT, fetchTargets]
  · unfold Spider.get_peer_addr
    rw [hport]

/-- Witness for C2: with `implied_port` absent the derivation picks
the UDP source port. -/
theorem C2_witness :
    (exArgsNoImplied.info_hash = some exInfoHash ∧ exInfoHash ≠ [] ∧
      exArgsNoImplied.id = some exSender ∧
      (fun _ : Bytes => false) exInfoHash = false) ∧
    (fetchTargets (Crawler.handle_announce_peer_query (fun _ => false)
        exOwn [116, 50] exArgsNoImplied exAddr) =
      (if truthyInt (derivedPortSpec exArgsNoImplied exAddr) then
        [(exInfoHash,
          { ip := exAddr.ip, port := (derivedPortSpec exArgsNoImplied exAddr).getD 0 })]
       else []) ∧
    Spider.get_peer_addr exArgsNoImplied exAddr =
      (if truthyInt (derivedPortSpec exArgsNoImplied exAddr) then
        some { ip := exAddr.ip, port := (derivedPortSpec exArgsNoImplied exAddr).getD 0 }
       else none)) :=
  ⟨⟨rfl, by decide, rfl, rfl⟩,
   C2_port_derivation (fun _ => false) exOwn [116, 50] exInfoHash exSender
     exArgsNoImplied exAddr rfl (by decide) rfl rfl⟩

/-- Counterexample to C2 as stated: the query carries `port = 5678`
and no `implied_port`, yet both the crawler and the spider derive the
UDP source port 1234, not the `port` argument. -/
theorem C2_counterexample :
    fetchTargets (Crawler.handle_announce_peer_query (fun _ => false)
        exOwn [116, 50] exArgsNoImplied exAddr) =
      [(exInfoHash, { ip := "1.2.3.4", port := 1234 })] ∧
    Spider.get_peer_addr exArgsNoImplied exAddr = some { ip := "1.2.3.4", port := 1234 } ∧
    exArgsNoImplied.port = some 5678 ∧ (1234 : Int) ≠ 5678 := by decide

-- Claim C3.

/-- C3 (amended): every fetch submitted by the crawler's announce
handler and get_peers response handler is gated by the counting
semaphore (whose size is `FETCHER_SEMAPHORE_LIMIT = 100`), and under
the semaphore discipline the in-flight session count never exceeds the
limit; fetches submitted by `Node.handle_get_peers_response` bypass
the semaphore (see the counterexample). -/
theorem C3_gating (ih : Bytes) (values : List Bytes) (seen : Bytes → Bool)
    (own trans_id : Bytes) (args : AnnounceArgs) (address : Addr)
    (limit n : Nat) (es : List SemEvent) (h : n ≤ limit) :
    (Crawler.handle_get_peers_response ih values).all (fun a => !isUngatedFetch a) = true ∧
    (Crawler.handle_announce_peer_query seen own trans_id args address).all
      (fun a => !isUngatedFetch a) = true ∧
    semRun limit n es ≤ limit ∧
    FETCHER_SEMAPHORE_LIMIT = 100 :=
  ⟨crawler_get_peers_response_gated ih values,
   crawler_announce_gated seen own trans_id args address,
   semRun_le limit es n h, rfl⟩

/-- Witness for C3 at concrete inputs. -/
theorem C3_witness :
    (3 : Nat) ≤ 100 ∧
    ((Crawler.handle_get_peers_response exInfoHash [[1, 2, 3, 4, 0, 80]]).all
        (fun a => !isUngatedFetch a) = true ∧
      (Crawler.handle_announce_peer_query (fun _ => false) exOwn [116, 50]
        exArgsImplied0 exAddr).all (fun a => !isUngatedFetch a) = true ∧
      semRun 100 3 [SemEvent.acquire, SemEvent.release] ≤ 100 ∧
      FETCHER_SEMAPHORE_LIMIT = 100) :=
  ⟨by decide,
   C3_gating exInfoHash [[1, 2, 3, 4, 0, 80]] (fun _ => false) exOwn [116, 50]
     exArgsImplied0 exAddr 100 3 [SemEvent.acquire, SemEvent.release] (by decide)⟩

/-- Counterexample to C3 as stated: `Node.handle_get_peers_response`
submits a fetch for a compact peer that never acquires the
semaphore. -/
theorem C3_counterexample :
    (Node.handle_get_peers_response exInfoHash [[1, 2, 3, 4, 0, 80]]).any
      isUngatedFetch = true ∧
    (Node.handle_get_peers_response exInfoHash [[1, 2, 3, 4, 0, 80]]).any
      isFetchAction = true := by decide

-- Claim C4.

/-- C4: along any run of the fetcher message loop the completion
callback is invoked at most once (the callback list is empty or a
singleton), and any invocation carries the session's `info_hash`
together with a fully filled piece assembly whose SHA-1 digest equals
that `info_hash` and whose concatenation bdecodes to the delivered
metadata. -/
theorem C4_fetcher_callback (sha1 : Bytes → Bytes) (info_hash : Bytes)
    (st : FetchState) (msgs : List Bytes) :
    runFetch sha1 info_hash st msgs = [] ∨
    ∃ cb ps, runFetch sha1 info_hash st msgs = [cb] ∧ cb.1 = info_hash ∧
      allFilled ps = true ∧ sha1 (joinPieces ps) = info_hash ∧
      bdecode (joinPieces ps) = some cb.2 := by
  induction msgs generalizing st with
  | nil => left; rfl
  | cons m ms ih2 =>
    rw [runFetch]
    cases hstep : fetchStep sha1 info_hash st m with
    | cont st' => exact ih2 st'
    | halt ocb =>
      cases ocb with
      | none => left; rfl
      | some cb =>
        right
        obtain ⟨h1, ps, h2, h3, h4⟩ := fetchStep_halt_some sha1 info_hash st m cb hstep
        exact ⟨cb, ps, rfl, h1, h2, h3, h4⟩

-- Claim C5.

/-- C5 (amended): whenever the crawler completion callback processes a
metadata dictionary whose `name` entry is a byte string or absent, the
fetched `info_hash` is added to the SeenSet (after the save and the
counter bump); `Node.on_metadata_received` never adds the identifier
to the SeenSet. -/
theorem C5_crawler_adds (ih : Bytes) (meta : BVal) (h : metaNameOk meta = true) :
    Crawler.on_metadata_received ih meta =
      [Action.storageSave ih meta, Action.countIncr, Action.seenAdd ih] ∧
    Action.seenAdd ih ∈ Crawler.on_metadata_received ih meta ∧
    ∀ m, Action.seenAdd ih ∉ Node.on_metadata_received ih m := by
  refine ⟨by simp [Crawler.on_metadata_received, h],
          by simp [Crawler.on_metadata_received, h], ?_⟩
  intro m
  unfold Node.on_metadata_received
  split <;> simp

/-- Witness for C5 at a concrete metadata dictionary. -/
theorem C5_witness :
    metaNameOk exMeta = true ∧
    (Crawler.on_metadata_received exInfoHash exMeta =
      [Action.storageSave exInfoHash exMeta, Action.countIncr, Action.seenAdd exInfoHash] ∧
      Action.seenAdd exInfoHash ∈ Crawler.on_metadata_received exInfoHash exMeta ∧
      ∀ m, Action.seenAdd exInfoHash ∉ Node.on_metadata_received exInfoHash m) :=
  ⟨by decide, C5_crawler_adds exInfoHash exMeta (by decide)⟩

/-- Counterexample to C5 as stated: the node's completion callback
runs (it saves and bumps the counter) yet never adds the fetched
`info_hash` to the SeenSet. -/
theorem C5_counterexample :
    Node.on_metadata_received exInfoHash exMeta =
      [Action.storageSave exInfoHash exMeta, Action.countIncr] ∧
    Action.seenAdd exInfoHash ∉ Node.on_metadata_received exInfoHash exMeta := by decide

-- Claim C6.

/-- C6: at the concrete data message whose bencoded header
`{a: {b: 1}, piece: 0}` contains the pair `b"ee"` before its outer
terminator, an incremental decode consumes 23 bytes leaving the raw
piece bytes, whereas the code's first-`b"ee"` split cuts at offset 12,
producing an undecodable header, so the session aborts with no piece
stored - the code does not implement the claimed incremental split. -/
theorem C6_header_split :
    bdecodeConsumed exDataPayload = some (exDataHeaderVal, 23) ∧
    exDataPayload.drop 23 = [88, 89] ∧
    bencodedEnd exDataPayload = 12 ∧
    bencodedEnd exDataPayload ≠ 23 ∧
    bdecode (exDataPayload.take (bencodedEnd exDataPayload)) = none ∧
    fetchData (fun _ => []) exInfoHash { peerUt := some 1, pieces := [none] }
      exDataPayload = FetchRes.halt none ∧
    fetchStep (fun _ => []) exInfoHash { peerUt := some 1, pieces := [none] }
      ([20, 1] ++ exDataPayload) = FetchRes.halt none := by decide

-- Claim C7.

/-- C7 (amended): `Spider.handle_query` answers `get_peers` with a
response whose token is `info_hash[0:2]`, whose id is the near-fake of
the sender id and whose nodes field is empty; the crawler's
`handle_get_peers_query` instead passes the constant token
`b"some_token"` (with the same id and nodes fields). -/
theorem C7_token_fields (own t ih sid ft : Bytes) (osid : Option Bytes) (address : Addr) :
    getPeersReplies (Spider.handle_query_get_peers own t ih osid address ft) =
      [(t, fake_node_id own osid, ih.take 2, [])] ∧
    getPeersReplies (Crawler.handle_get_peers_query own t (some ih) (some sid) address) =
      [(t, fake_node_id own (some sid), some_token, [])] := by
  constructor <;> rfl

/-- Counterexample to C7 as stated: for the concrete info hash
`bytes(range(20))` the crawler's reply token is the constant
`b"some_token"`, not `info_hash[0:2]`. -/
theorem C7_counterexample :
    getPeersReplies (Crawler.handle_get_peers_query exOwn [116, 51]
        (some (List.range 20)) (some exSender) exAddr) =
      [([116, 51], fake_node_id exOwn (some exSender), some_token, [])] ∧
    some_token ≠ (List.range 20).take 2 := by decide

-- Claim C8.

/-- C8: for every 20-byte `target` (with the 20-byte local id),
`_fake_node_id` returns a 20-byte identifier whose first 19 bytes are
`target[0:19]` and whose byte at index 19 is the local id's byte at
index 19 (stated as equality of the suffixes from index 19); when the
target is absent the real node id is returned. -/
theorem C8_fake_node_id (own target : Bytes)
    (hT : target.length = 20) (hO : own.length = 20) :
    (fake_node_id own (some target)).take 19 = target.take 19 ∧
    (fake_node_id own (some target)).drop 19 = own.drop 19 ∧
    (fake_node_id own (some target)).length = 20 ∧
    fake_node_id own none = own := by
  have htr : truthyBytes (some target) = true := by
    cases target with
    | nil => simp at hT
    | cons a l => rfl
  have hdl : target.dropLast.length = 19 := by
    simp [List.length_dropLast, hT]
  refine ⟨?_, ?_, ?_, ?_⟩
  · simp only [fake_node_id, htr, if_pos, Option.getD_some]
    rw [List.take_append_of_le_length (by omega)]
    rw [List.dropLast_eq_take, hT]
    simp [List.take_take]
  · simp only [fake_node_id, htr, if_pos, Option.getD_some]
    rw [hO]
    have := List.drop_left target.dropLast (own.drop 19)
    rw [hdl] at this
    simpa using this
  · simp only [fake_node_id, htr, if_pos, Option.getD_some]
    simp [hdl, hO]
  · rfl

/-- Witness for C8 at concrete 20-byte identifiers. -/
theorem C8_witness :
    (List.replicate 20 3 : Bytes).length = 20 ∧
    ((fake_node_id (List.replicate 20 5) (some (List.replicate 20 3))).take 19 =
        (List.replicate 20 3 : Bytes).take 19 ∧
      (fake_node_id (List.replicate 20 5) (some (List.replicate 20 3))).drop 19 =
        (List.replicate 20 5 : Bytes).drop 19 ∧
      (fake_node_id (List.replicate 20 5) (some (List.replicate 20 3))).length = 20 ∧
      fake_node_id (List.replicate 20 5) none = List.replicate 20 5) :=
  ⟨by decide, C8_fake_node_id (List.replicate 20 5) (List.replicate 20 3) (by decide) (by decide)⟩

-- Claim C9.

/-- C9 (amended): at shutdown both `Crawler.close` and `Spider.stop`
open the snapshot path itself for writing and write the serialized
filter to it directly; no rename is ever performed, so the write is
not atomic. -/
theorem C9_direct_write (p : String) (d : Bytes) :
    Crawler.close_fs_ops p d = [FsOp.openTrunc p, FsOp.writeAll p d] ∧
    Spider.stop_fs_ops p d = [FsOp.openTrunc p, FsOp.writeAll p d] ∧
    (∀ a b, FsOp.rename a b ∉ Crawler.close_fs_ops p d) ∧
    (∀ a b, FsOp.rename a b ∉ Spider.stop_fs_ops p d) := by
  refine ⟨rfl, rfl, ?_, ?_⟩ <;>
    · intro a b
      simp [Crawler.close_fs_ops, Spider.stop_fs_ops]

/-- Counterexample to C9 as stated: the shutdown trace at the default
snapshot path is not an atomic temp-file-and-rename snapshot. -/
theorem C9_counterexample :
    ¬ atomicSnapshot
        (Crawler.close_fs_ops "seen_info_hashes.bloom" [1, 2, 3])
        "seen_info_hashes.bloom" := by
  intro h
  exact h.1 (by simp [Crawler.close_fs_ops])

-- Claim C10.

/-- C10 (amended): for every response whose registered transaction id
is non-empty, `handle_response` removes the entry before returning
provided the dispatch completes without raising: in particular for
every response whose `r` value is a dict containing neither `nodes`
nor `values` (the unroutable case), and for every routed find_node
response whose handler call returns normally.  When the membership
test raises (integer `r`) or the routed handler raises, the `del` is
skipped and the transaction survives (see the counterexample).
Generated transaction ids are never empty, so registered ids never
hit the falsy-`t` early return. -/
theorem C10_handle_response (h : RespHandler) (tbl : TransTable) (msg : RespMsg)
    (addr : Addr) (t ihash : Bytes)
    (ht : msg.t = some t) (hreg : transGet tbl t = some ihash) (hne : t ≠ []) :
    (∀ d, msg.r.getD (BVal.dict .nil) = BVal.dict d →
      bdictGet d keyNodes = none → bdictGet d keyValues = none →
      (KRPC.handle_response h tbl msg addr).2 = transDel tbl t ∧
      transGet (KRPC.handle_response h tbl msg addr).2 t = none) ∧
    (∀ acts, bvalContains (msg.r.getD (BVal.dict .nil)) keyNodes = some true →
      h.find_node t (msg.r.getD (BVal.dict .nil)) addr = (acts, false) →
      transGet (KRPC.handle_response h tbl msg addr).2 t = none) ∧
    (∀ n, get_transaction_id n ≠ []) := by
  have htr : truthyBytes (some t) = true := by
    cases t with
    | nil => exact absurd rfl hne
    | cons a l => rfl
  refine ⟨?_, ?_, fun n => decimalDigitsAux_ne_nil (n + 1) (n + 1)⟩
  · intro d hd hn hv
    have h2 : (KRPC.handle_response h tbl msg addr).2 = transDel tbl t := by
      simp [KRPC.handle_response, ht, htr, hreg, hd, bvalContains, hn, hv]
    exact ⟨h2, by rw [h2]; exact transGet_transDel tbl t⟩
  · intro acts hn hcall
    have h2 : (KRPC.handle_response h tbl msg addr).2 = transDel tbl t := by
      simp [KRPC.handle_response, ht, htr, hreg, hn, hcall]
    rw [h2]
    exact transGet_transDel tbl t

/-- Witness for C10 at a concrete unroutable response (the key `r`
absent, for which the code substitutes the empty dict). -/
theorem C10_witness :
    (RespMsg.mk (some [49]) none).t = some [49] ∧
    transGet [([49], exInfoHash)] [49] = some exInfoHash ∧
    ([49] : Bytes) ≠ [] ∧
    ((∀ d, (RespMsg.mk (some [49]) none).r.getD (BVal.dict .nil) = BVal.dict d →
        bdictGet d keyNodes = none → bdictGet d keyValues = none →
        (KRPC.handle_response exRespHandlerOk [([49], exInfoHash)]
          (RespMsg.mk (some [49]) none) exAddr).2 = transDel [([49], exInfoHash)] [49] ∧
        transGet (KRPC.handle_response exRespHandlerOk [([49], exInfoHash)]
          (RespMsg.mk (some [49]) none) exAddr).2 [49] = none) ∧
      (∀ acts, bvalContains ((RespMsg.mk (some [49]) none).r.getD (BVal.dict .nil))
          keyNodes = some true →
        exRespHandlerOk.find_node [49]
          ((RespMsg.mk (some [49]) none).r.getD (BVal.dict .nil)) exAddr = (acts, false) →
        transGet (KRPC.handle_response exRespHandlerOk [([49], exInfoHash)]
          (RespMsg.mk (some [49]) none) exAddr).2 [49] = none) ∧
      (∀ n, get_transaction_id n ≠ [])) :=
  ⟨rfl, by decide, by decide,
   C10_handle_response exRespHandlerOk _ _ exAddr [49] exInfoHash rfl (by decide) (by decide)⟩

/-- Counterexample to C10 as stated: two responses bearing the
registered id `b"1"` that do not consume the transaction.  With
`r = 5` the membership test `b'nodes' in args` raises `TypeError` at
krpc.py line 122; with `r = {nodes: 42}` the routed
`handle_find_node_response` raises (`len(42)` inside `decode_nodes`);
either way the `del` at krpc.py lines 129-130 is skipped and the
registered entry survives. -/
theorem C10_counterexample :
    transGet [([49], exInfoHash)] [49] = some exInfoHash ∧
    (KRPC.handle_response exRespHandlerOk [([49], exInfoHash)]
        (RespMsg.mk (some [49]) (some (BVal.int 5))) exAddr).2 = [([49], exInfoHash)] ∧
    transGet (KRPC.handle_response exRespHandlerOk [([49], exInfoHash)]
        (RespMsg.mk (some [49]) (some (BVal.int 5))) exAddr).2 [49] = some exInfoHash ∧
    (KRPC.handle_response exRespHandlerRaise [([49], exInfoHash)]
        (RespMsg.mk (some [49])
          (some (BVal.dict (.cons keyNodes (BVal.int 42) .nil)))) exAddr).2 =
      [([49], exInfoHash)] := by decide

end DhtSpider
